import Mathlib

/-!
Shallow embedding of the data-transformation pipeline of
app_optimized.py (repository informes_skinic): handpiece-identifier
classification, remaining-service-life estimation, date normalization
and filtering, the treatment left-join with default fill, and the
percentage summaries.  Machine floats of the source are modelled by
exact rationals, pandas timestamps by integers (seconds, UTC),
nullable cells by Option.
-/

namespace InformesSkinic

/-- Device classes produced by the identifier classification
(app_optimized.py lines 134-138): MF is the label M.F. (MAIN_FUNCTION),
FF is F.F. (SECONDARY_FUNCTION), UNID is Manguera_no_identificada. -/
inductive DeviceClass where
  | MF
  | FF
  | UNID
  deriving DecidableEq

/-- Helper for the regex model: the argument is the reversed character
list of a string; true iff its first element (the last character of the
string) is a decimal digit and its second element is the character c. -/
def revTwoMatch (c : Char) : List Char → Bool
  | d :: c2 :: _ => d.isDigit && c2 == c
  | _ => false

/-- Helper for the regex model: on the reversed character list of a
string, drop one leading newline when present.  The Python end anchor
matches either at the very end of the string or just before one final
newline; since a digit is never a newline, a two-character match
ending at the anchor is exactly a match at the head of this list. -/
def stripNL : List Char → List Char
  | [] => []
  | d :: rest => if d == '\n' then rest else d :: rest

/-- Python re.search with the two-character pattern c followed by a
digit, anchored at the end (patterns 1\d$ and 2\d$ of
app_optimized.py lines 135-136 and 164/170): true iff the string ends
with c then one digit, optionally followed by one trailing newline. -/
def searchEndDigit (c : Char) (s : String) : Bool :=
  revTwoMatch c (stripNL s.data.reverse)

/-- Identifier classification of process_data (app_optimized.py lines
134-138): the F.F. test (pattern 2\d$) runs first, then the M.F. test
(pattern 1\d$), otherwise the row is unidentified. -/
def classifyHandpieceId (s : String) : DeviceClass :=
  if searchEndDigit '2' s then .FF
  else if searchEndDigit '1' s then .MF
  else .UNID

/-- Normalized usage counters of one handpiece row (after the renames
of app_optimized.py lines 120-125).  The data model fixes the four
counters as non-negative integers. -/
structure UsageRow where
  pulso : ℕ
  rafaga : ℕ
  activacion : ℕ
  modulacion : ℕ
  deriving DecidableEq

/-- Rounding to the nearest integer with ties to even: the rounding of
numpy round, Python round and the percent formatting, applied here to
exact rationals. -/
def roundHalfEven (q : ℚ) : ℤ :=
  let f := q.floor
  if q - f < 1 / 2 then f
  else if 1 / 2 < q - f then f + 1
  else if f % 2 = 0 then f else f + 1

/-- Model of the format string rendering a value with one decimal digit
followed by a percent sign (app_optimized.py line 182), for the
non-negative percentages that reach it. -/
def formatPct1 (q : ℚ) : String :=
  let n := (roundHalfEven (q * 10)).toNat
  toString (n / 10) ++ "." ++ toString (n % 10) ++ "%"

/-- Weighted consumption for an M.F. row, app_optimized.py lines
166-169: pulso times 20 plus rafaga times 1 plus the sum of activacion
and modulacion. -/
def usedMF (r : UsageRow) : ℚ :=
  r.pulso * 20 + r.rafaga * 1 + ((r.activacion : ℚ) + r.modulacion)

/-- Weighted consumption for an F.F. row, app_optimized.py lines
172-175: pulso times 10 plus rafaga times 1 plus half the sum of
activacion and modulacion. -/
def usedFF (r : UsageRow) : ℚ :=
  r.pulso * 10 + r.rafaga * 1 + ((r.activacion : ℚ) + r.modulacion) * (0.5 : ℚ)

/-- calculate_vida_util, app_optimized.py lines 161-184.  The class is
re-derived from the raw identifier (M.F. test first here); capacity is
4000000 for M.F. and 2000000 for F.F.; a non-positive remainder yields
the exact string 0 percent, otherwise the remaining percentage is
formatted with one decimal digit. -/
def calculate_vida_util (row : UsageRow) (handpiece_id : String) : String :=
  if searchEndDigit '1' handpiece_id then
    let total : ℚ := 4000000
    let remaining := total - usedMF row
    if remaining ≤ 0 then "0%" else formatPct1 (remaining / total * 100)
  else if searchEndDigit '2' handpiece_id then
    let total : ℚ := 2000000
    let remaining := total - usedFF row
    if remaining ≤ 0 then "0%" else formatPct1 (remaining / total * 100)
  else "Manguera_no_identificada"

/-- Pulse rescaling of process_data, app_optimized.py line 111: the raw
pulse counter divided by 3, rounded (ties to even, as pandas round)
and cast back to an integer. -/
def rescale_pulse_count (raw : ℕ) : ℕ :=
  (roundHalfEven ((raw : ℚ) / 3)).toNat

/-- Claim C1 formula for MAIN_FUNCTION rows, written from the words of
the spec: consumed is pulso times 20 plus rafaga times 1 plus the sum
of activacion and modulacion times 1, against total capacity 4000000;
exactly 0 percent whenever the remainder is non-positive. -/
def vidaUtilSpecMF (r : UsageRow) : String :=
  let consumed : ℚ := r.pulso * 20 + r.rafaga * 1 + ((r.activacion : ℚ) + r.modulacion) * 1
  if 4000000 - consumed ≤ 0 then "0%"
  else formatPct1 ((4000000 - consumed) / 4000000 * 100)

/-- Claim C1 formula for SECONDARY_FUNCTION rows, written from the
words of the spec: consumed is pulso times 10 plus rafaga times 1 plus
the sum of activacion and modulacion times 0.5, against total capacity
2000000. -/
def vidaUtilSpecFF (r : UsageRow) : String :=
  let consumed : ℚ := r.pulso * 10 + r.rafaga * 1 + ((r.activacion : ℚ) + r.modulacion) * (0.5 : ℚ)
  if 2000000 - consumed ≤ 0 then "0%"
  else formatPct1 ((2000000 - consumed) / 2000000 * 100)

/-- Claim C2 suffix test as the claim words it: the string ends with a
digit, then the character c, then a digit. -/
def endsDigitCDigit (c : Char) (s : String) : Bool :=
  match s.data.reverse with
  | d :: c2 :: e :: _ => d.isDigit && c2 == c && e.isDigit
  | _ => false

/-- The classifier exactly as claim C2 describes it: three trailing
characters digit-1-digit give MAIN_FUNCTION, digit-2-digit give
SECONDARY_FUNCTION, everything else is unidentified. -/
def claimC2Classify (s : String) : DeviceClass :=
  if endsDigitCDigit '1' s then .MF
  else if endsDigitCDigit '2' s then .FF
  else .UNID

/-- Specification-level suffix predicate for the amended claim C2: the
string ends with the character c followed by one decimal digit,
optionally followed by one trailing newline. -/
def EndsCDigit (c : Char) (s : String) : Prop :=
  (∃ d r, s.data.reverse = d :: c :: r ∧ d.isDigit = true) ∨
    (∃ d r, s.data.reverse = '\n' :: d :: c :: r ∧ d.isDigit = true)

/-- Numeric remaining-life value behind calculate_vida_util: the
percentage the string branch renders, clamped at zero exactly where the
source returns the string 0 percent; none for unidentified rows. -/
def vida_util_value (row : UsageRow) (id : String) : Option ℚ :=
  if searchEndDigit '1' id then
    some (max 0 ((4000000 - usedMF row) / 4000000 * 100))
  else if searchEndDigit '2' id then
    some (max 0 ((2000000 - usedFF row) / 2000000 * 100))
  else none

/-- A pandas timestamp as the pipeline sees it: either naive (no zone)
or zoned UTC.  The integer is the instant in seconds; a naive value is
read as UTC wall-clock, which is what tz_localize UTC does. -/
inductive PdTimestamp where
  | naive (t : ℤ)
  | utc (t : ℤ)
  deriving DecidableEq

/-- Normalization to a UTC instant (tz_localize UTC when naive,
app_optimized.py lines 106-108 and 190-192). -/
def toUTC : PdTimestamp → ℤ
  | .naive t => t
  | .utc t => t

/-- One handpiece row as process_handpiece_dates receives it, after
the renames, classification and vida_util computation of
process_data. -/
structure HandpieceRow where
  fecha_uso : PdTimestamp
  din : String
  tipo_manipulo : String
  numero_serie : String
  vida_util : String
  pulso : ℕ
  rafaga : ℕ
  activacion : ℕ
  modulacion : ℕ
  deriving DecidableEq

/-- A handpiece row whose timestamp has been normalized to a UTC
instant. -/
structure NormHandpieceRow where
  fecha_uso : ℤ
  din : String
  tipo_manipulo : String
  numero_serie : String
  vida_util : String
  pulso : ℕ
  rafaga : ℕ
  activacion : ℕ
  modulacion : ℕ
  deriving DecidableEq

/-- A normalized handpiece row together with its derived estado
column. -/
structure StatusHandpieceRow where
  fecha_uso : ℤ
  estado : String
  din : String
  tipo_manipulo : String
  numero_serie : String
  vida_util : String
  pulso : ℕ
  rafaga : ℕ
  activacion : ℕ
  modulacion : ℕ
  deriving DecidableEq

/-- Timestamp-column localization (app_optimized.py lines 190-192). -/
def localizeRow (r : HandpieceRow) : NormHandpieceRow :=
  ⟨toUTC r.fecha_uso, r.din, r.tipo_manipulo, r.numero_serie, r.vida_util,
    r.pulso, r.rafaga, r.activacion, r.modulacion⟩

/-- Seconds in one day, the unit conversion behind the pandas days
attribute of a timedelta. -/
def secondsPerDay : ℤ := 86400

/-- estado derivation (app_optimized.py lines 200-203): ACTIVO iff the
whole-day count of the timedelta from the row timestamp to now is
below 30; the days attribute of a pandas timedelta is the floor of the
exact day count. -/
def addEstado (today : ℤ) (r : NormHandpieceRow) : StatusHandpieceRow :=
  ⟨r.fecha_uso,
    if (today - r.fecha_uso).fdiv secondsPerDay < 30 then "ACTIVO" else "INACTIVO",
    r.din, r.tipo_manipulo, r.numero_serie, r.vida_util,
    r.pulso, r.rafaga, r.activacion, r.modulacion⟩

/-- Forgets the derived estado column again (used only to state the
filter property). -/
def dropEstado (r : StatusHandpieceRow) : NormHandpieceRow :=
  ⟨r.fecha_uso, r.din, r.tipo_manipulo, r.numero_serie, r.vida_util,
    r.pulso, r.rafaga, r.activacion, r.modulacion⟩

/-- process_handpiece_dates, app_optimized.py lines 187-210: localize
the timestamp column to UTC when naive, keep exactly the rows whose
timestamp is at or after the cutoff instant, sort by timestamp
descending, then derive estado; the source captures now once per
invocation (line 200), modelled by the single today parameter. -/
def process_handpiece_dates (rows : List HandpieceRow) (cutoff : ℤ) (today : ℤ) :
    List StatusHandpieceRow :=
  (((rows.map localizeRow).filter (fun r => cutoff ≤ r.fecha_uso)).mergeSort
      (fun a b => decide (b.fecha_uso ≤ a.fecha_uso))).map (addEstado today)

/-- One raw treatment event row (treatments.csv). -/
structure TreatmentRow where
  din : String
  code : String
  reported_at : PdTimestamp
  duration : ℤ
  deriving DecidableEq

/-- One treatment lookup row (treatments_id.csv): nullable category,
program, subprogram, price and sequence columns keyed by
Treatment_ID. -/
structure TreatmentIdRow where
  treatment_id : String
  tipo : Option String
  subtipo : Option String
  subprograma : Option String
  pvp : Option ℚ
  secuencia : Option ℚ
  deriving DecidableEq

/-- A treatment row after the left merge (app_optimized.py lines
220-225): the joined columns are still nullable. -/
structure MergedTreatmentRow where
  din : String
  code : String
  reported_at : PdTimestamp
  duration : ℤ
  tipo : Option String
  subtipo : Option String
  subprograma : Option String
  pvp : Option ℚ
  secuencia : Option ℚ
  deriving DecidableEq

/-- A treatment row after the default fill (app_optimized.py lines
228-233): Tipo, Subprograma, PVP and Secuencia are filled; Subtipo
stays nullable because the source fills no default for it. -/
structure FilledTreatmentRow where
  din : String
  code : String
  reported_at : PdTimestamp
  duration : ℤ
  tipo : String
  subtipo : Option String
  subprograma : String
  pvp : ℚ
  secuencia : ℚ
  deriving DecidableEq

/-- The rows one left row contributes to the merge: one output per
matching lookup row, or a single output with all joined columns null
when no lookup row matches. -/
def mergeOne (ids : List TreatmentIdRow) (t : TreatmentRow) : List MergedTreatmentRow :=
  match ids.filter (fun l => l.treatment_id == t.code) with
  | [] => [⟨t.din, t.code, t.reported_at, t.duration, none, none, none, none, none⟩]
  | ms => ms.map fun l =>
      ⟨t.din, t.code, t.reported_at, t.duration, l.tipo, l.subtipo, l.subprograma,
        l.pvp, l.secuencia⟩

/-- pandas merge with how left on code = Treatment_ID (app_optimized.py
lines 220-225), preserving the order of the left rows. -/
def mergeLeft (ts : List TreatmentRow) (ids : List TreatmentIdRow) :
    List MergedTreatmentRow :=
  ts.flatMap (mergeOne ids)

/-- The fillna defaults of app_optimized.py lines 228-233: Tipo FHOS,
Subprograma FHOS genérico, PVP 60, Secuencia 1.0; Subtipo untouched. -/
def fillDefaults (m : MergedTreatmentRow) : FilledTreatmentRow :=
  ⟨m.din, m.code, m.reported_at, m.duration,
    m.tipo.getD "FHOS", m.subtipo, m.subprograma.getD "FHOS genérico",
    m.pvp.getD 60, m.secuencia.getD 1⟩

/-- A filled treatment row with its report timestamp normalized to a
UTC instant (app_optimized.py lines 239-241). -/
structure DatedTreatmentRow where
  din : String
  code : String
  reported_at : ℤ
  duration : ℤ
  tipo : String
  subtipo : Option String
  subprograma : String
  pvp : ℚ
  secuencia : ℚ
  deriving DecidableEq

/-- Report-timestamp localization (app_optimized.py lines 239-241). -/
def localizeTreatmentRow (r : FilledTreatmentRow) : DatedTreatmentRow :=
  ⟨r.din, r.code, toUTC r.reported_at, r.duration, r.tipo, r.subtipo, r.subprograma,
    r.pvp, r.secuencia⟩

/-- process_treatments, app_optimized.py lines 216-248: left merge,
default fill, filter by din, localize the report timestamp and keep
rows at or after the cutoff; no sort. -/
def process_treatments (ts : List TreatmentRow) (ids : List TreatmentIdRow)
    (din : String) (cutoff : ℤ) : List DatedTreatmentRow :=
  ((((mergeLeft ts ids).map fillDefaults).filter (fun r => r.din == din)).map
      localizeTreatmentRow).filter (fun r => cutoff ≤ r.reported_at)

/-- One group of a summary before the percentage columns. -/
structure SummaryGroup where
  label : String
  cantidad : ℕ
  pvp : ℚ
  deriving DecidableEq

/-- One output row of a summary (app_optimized.py lines 263-274). -/
structure SummaryRow where
  label : String
  cantidad : ℕ
  pvp : ℚ
  pctTratamientos : ℚ
  pctIngresos : ℚ
  deriving DecidableEq

/-- Rounding to 2 decimal places with ties to even: pandas round(2). -/
def round2 (q : ℚ) : ℚ :=
  (roundHalfEven (q * 100) : ℚ) / 100

/-- The grouping stage shared by the three summaries: rows with a
missing key are dropped (pandas groupby drops null keys); each key of
the key column yields its row count and its PVP sum. -/
def summaryGroups {α : Type} (getKey : α → Option String) (getPvp : α → ℚ)
    (q : List α) : List SummaryGroup :=
  ((q.filterMap getKey).dedup).map fun k =>
    ⟨k, (q.filter (fun r => getKey r == some k)).length,
      ((q.filter (fun r => getKey r == some k)).map getPvp).sum⟩

/-- The shared shape of the three summary builders (app_optimized.py
lines 254-327): keep rows with Secuencia exactly 1.0, group by the key
column, sort groups by count descending, then attach the percentage
columns, each rounded to 2 decimals against the totals of the grouped
table. -/
def summarizeBy {α : Type} (getKey : α → Option String) (getSec : α → ℚ)
    (getPvp : α → ℚ) (rows : List α) : List SummaryRow :=
  let q := rows.filter (fun r => getSec r == 1)
  let sorted := (summaryGroups getKey getPvp q).mergeSort
    (fun a b => decide (b.cantidad ≤ a.cantidad))
  let totalC : ℚ := (sorted.map (fun g => (g.cantidad : ℚ))).sum
  let totalP : ℚ := (sorted.map (fun g => g.pvp)).sum
  sorted.map fun g =>
    ⟨g.label, g.cantidad, g.pvp, round2 ((g.cantidad : ℚ) / totalC * 100),
      round2 (g.pvp / totalP * 100)⟩

/-- create_treatment_summary, app_optimized.py lines 254-277: the
summary by Tipo (a non-null column after the default fill). -/
def create_treatment_summary (rows : List DatedTreatmentRow) : List SummaryRow :=
  summarizeBy (fun r => some r.tipo) (fun r => r.secuencia) (fun r => r.pvp) rows

/-- create_program_summary, app_optimized.py lines 279-302: the summary
by Subtipo; rows without a Subtipo are dropped by the groupby. -/
def create_program_summary (rows : List DatedTreatmentRow) : List SummaryRow :=
  summarizeBy (fun r => r.subtipo) (fun r => r.secuencia) (fun r => r.pvp) rows

/-- create_subprogram_summary, app_optimized.py lines 304-327: the
summary by Subprograma (a non-null column after the default fill). -/
def create_subprogram_summary (rows : List DatedTreatmentRow) : List SummaryRow :=
  summarizeBy (fun r => some r.subprograma) (fun r => r.secuencia) (fun r => r.pvp) rows

/-- Thirty-two first-sequence treatment rows with pairwise distinct
Tipo labels and equal prices: the counterexample input for claim C5. -/
def c5Rows : List DatedTreatmentRow :=
  (List.range 32).map fun i =>
    ⟨"D", "C", 0, 0, "T" ++ toString i, none, "S", 60, 1⟩

/-- An input cell of the fecha_corte column as convert_excel_date sees
it (app_optimized.py lines 31-39): a number (int or float, a count of
days since 1899-12-30), a float NaN, a digits-only string, or anything
else. -/
inductive ExcelCell where
  | num (days : ℚ)
  | nan
  | digitStr (n : ℕ)
  | other
  deriving DecidableEq

/-- convert_excel_date, app_optimized.py lines 31-39.  Dates are
counted here in days since 1899-12-30, so an accepted serial converts
to its own value; a float NaN (accepted by the isinstance test) turns
into NaT through the NaT-propagating Timedelta, and any other value
returns NaT. -/
def convert_excel_date : ExcelCell → Option ℚ
  | .num days => some days
  | .nan => none
  | .digitStr n => some n
  | .other => none

/-- One row of drv_df after load_data converted its fecha_corte
column (app_optimized.py line 52). -/
structure DrvRow where
  din : String
  fecha_corte : Option ℚ
  deriving DecidableEq

/-- The floor 2023-01-01, as days since 1899-12-30 (Excel serial
44927). -/
def minCutoffDate : ℚ := 44927

/-- get_suggested_cutoff_date, app_optimized.py lines 59-77: the first
matching row of the device (iloc 0), its fecha_corte localized to UTC
(the identity on the instant); the minimum date is returned when the
device is absent (IndexError), when the stored date is NaT, or when it
lies before the minimum. -/
def get_suggested_cutoff_date (drv : List DrvRow) (din : String) : ℚ :=
  match (drv.filter (fun r => r.din == din)).head? with
  | none => minCutoffDate
  | some r =>
    match r.fecha_corte with
    | none => minCutoffDate
    | some d => if d < minCutoffDate then minCutoffDate else d

end InformesSkinic

namespace InformesSkinic

lemma revTwoMatch_iff (c : Char) (l : List Char) :
    revTwoMatch c l = true ↔ ∃ d r, l = d :: c :: r ∧ d.isDigit = true := by
  rcases l with - | ⟨d, - | ⟨c2, r⟩⟩
  · simp [revTwoMatch]
  · simp [revTwoMatch]
  · simp only [revTwoMatch, Bool.and_eq_true, beq_iff_eq, List.cons.injEq]
    constructor
    · rintro ⟨hd, rfl⟩
      exact ⟨d, r, ⟨rfl, rfl, rfl⟩, hd⟩
    · rintro ⟨d2, r2, ⟨rfl, h, rfl⟩, hd⟩
      exact ⟨hd, h⟩

lemma searchEndDigit_iff (c : Char) (s : String) :
    searchEndDigit c s = true ↔ EndsCDigit c s := by
  unfold searchEndDigit EndsCDigit
  rcases hl : s.data.reverse with - | ⟨d, rest⟩
  · simp [stripNL, revTwoMatch]
  · by_cases hnl : d = '\n'
    · subst hnl
      rw [show stripNL ('\n' :: rest) = rest from by simp [stripNL]]
      rw [revTwoMatch_iff]
      constructor
      · rintro ⟨d2, r, rfl, hd⟩
        exact Or.inr ⟨d2, r, rfl, hd⟩
      · rintro (⟨d2, r, he, hd⟩ | ⟨d2, r, he, hd⟩)
        · injection he with h1 h2
          rw [← h1] at hd
          exact absurd hd (by decide)
        · injection he with h1 h2
          exact ⟨d2, r, h2, hd⟩
    · rw [show stripNL (d :: rest) = d :: rest from by simp [stripNL, hnl]]
      rw [revTwoMatch_iff]
      constructor
      · rintro ⟨d2, r, he, hd⟩
        exact Or.inl ⟨d2, r, he, hd⟩
      · rintro (⟨d2, r, he, hd⟩ | ⟨d2, r, he, hd⟩)
        · exact ⟨d2, r, he, hd⟩
        · injection he with h1 h2
          exact absurd h1 hnl

lemma searchEndDigit_not_both (s : String) :
    searchEndDigit '1' s = true → searchEndDigit '2' s = true → False := by
  unfold searchEndDigit
  generalize stripNL s.data.reverse = m
  intro h1 h2
  rcases m with - | ⟨d, - | ⟨c2, r⟩⟩
  · simp [revTwoMatch] at h1
  · simp [revTwoMatch] at h1
  · simp only [revTwoMatch, Bool.and_eq_true, beq_iff_eq] at h1 h2
    rw [h1.2] at h2
    exact absurd h2.2 (by decide)

lemma formatPct1_ne_zeroPct (q : ℚ) : formatPct1 q ≠ "0%" := by
  intro h
  simp only [formatPct1] at h
  have hd := congrArg String.data h
  simp only [String.data_append] at hd
  have hlen := congrArg List.length hd
  simp only [List.length_append, List.length_cons, List.length_nil] at hlen
  have ha : (toString ((roundHalfEven (q * 10)).toNat / 10)).data.length = 0 := by omega
  have hb : (toString ((roundHalfEven (q * 10)).toNat % 10)).data.length = 0 := by omega
  rw [List.eq_nil_of_length_eq_zero ha, List.eq_nil_of_length_eq_zero hb] at hd
  exact absurd hd (by decide)

lemma usedMF_nonneg (r : UsageRow) : 0 ≤ usedMF r := by
  unfold usedMF
  positivity

lemma usedFF_nonneg (r : UsageRow) : 0 ≤ usedFF r := by
  unfold usedFF
  have h05 : (0.5 : ℚ) = 1 / 2 := by norm_num
  rw [h05]
  positivity

lemma usedMF_mono {r r2 : UsageRow} (hp : r.pulso ≤ r2.pulso) (hra : r.rafaga ≤ r2.rafaga)
    (hac : r.activacion ≤ r2.activacion) (hmo : r.modulacion ≤ r2.modulacion) :
    usedMF r ≤ usedMF r2 := by
  unfold usedMF
  have h1 : (r.pulso : ℚ) ≤ r2.pulso := by exact_mod_cast hp
  have h2 : (r.rafaga : ℚ) ≤ r2.rafaga := by exact_mod_cast hra
  have h3 : (r.activacion : ℚ) ≤ r2.activacion := by exact_mod_cast hac
  have h4 : (r.modulacion : ℚ) ≤ r2.modulacion := by exact_mod_cast hmo
  linarith

lemma usedFF_mono {r r2 : UsageRow} (hp : r.pulso ≤ r2.pulso) (hra : r.rafaga ≤ r2.rafaga)
    (hac : r.activacion ≤ r2.activacion) (hmo : r.modulacion ≤ r2.modulacion) :
    usedFF r ≤ usedFF r2 := by
  unfold usedFF
  have h1 : (r.pulso : ℚ) ≤ r2.pulso := by exact_mod_cast hp
  have h2 : (r.rafaga : ℚ) ≤ r2.rafaga := by exact_mod_cast hra
  have h3 : (r.activacion : ℚ) ≤ r2.activacion := by exact_mod_cast hac
  have h4 : (r.modulacion : ℚ) ≤ r2.modulacion := by exact_mod_cast hmo
  have h05 : (0.5 : ℚ) = 1 / 2 := by norm_num
  rw [h05]
  linarith

/-- Claim C2 (corrected, counterexample): the string A19 does not end
in digit-1-digit, so the claim as stated assigns it UNIDENTIFIED, but
the classifier of the source returns MAIN_FUNCTION for it, because the
pattern only constrains the last two characters. -/
theorem classify_c2_counterexample :
    classifyHandpieceId "A19" = DeviceClass.MF ∧ claimC2Classify "A19" = DeviceClass.UNID := by
  decide

/-- Claim C2 (amended): the classifier returns MAIN_FUNCTION exactly
for strings ending in the character 1 followed by a digit (optionally
followed by one trailing newline), SECONDARY_FUNCTION exactly for the
same pattern with the character 2, and UNIDENTIFIED for every other
string. -/
theorem classifyHandpieceId_suffix_rule (s : String) :
    (classifyHandpieceId s = DeviceClass.MF ↔ EndsCDigit '1' s) ∧
    (classifyHandpieceId s = DeviceClass.FF ↔ EndsCDigit '2' s) ∧
    (classifyHandpieceId s = DeviceClass.UNID ↔
      ¬ EndsCDigit '1' s ∧ ¬ EndsCDigit '2' s) := by
  by_cases h1 : searchEndDigit '1' s = true <;> by_cases h2 : searchEndDigit '2' s = true
  · exact (searchEndDigit_not_both s h1 h2).elim
  · simp [classifyHandpieceId, h1, h2, ← searchEndDigit_iff]
  · simp [classifyHandpieceId, h1, h2, ← searchEndDigit_iff]
  · simp [classifyHandpieceId, h1, h2, ← searchEndDigit_iff]

/-- Claim C1: on rows classified MAIN_FUNCTION the service-life string
follows the MAIN formula of the spec (capacity 4000000, weights 20, 1,
1), on rows classified SECONDARY_FUNCTION the SECONDARY formula
(capacity 2000000, weights 10, 1, 0.5); in both cases the output is
the percentage remaining formatted to one decimal with a percent sign
and exactly the string 0 percent when the remainder is non-positive. -/
theorem calculate_vida_util_formula (row : UsageRow) (id : String) :
    (classifyHandpieceId id = DeviceClass.MF →
      calculate_vida_util row id = vidaUtilSpecMF row) ∧
    (classifyHandpieceId id = DeviceClass.FF →
      calculate_vida_util row id = vidaUtilSpecFF row) := by
  by_cases h1 : searchEndDigit '1' id = true <;> by_cases h2 : searchEndDigit '2' id = true
  · exact (searchEndDigit_not_both id h1 h2).elim
  · constructor
    · intro h
      simp [calculate_vida_util, vidaUtilSpecMF, usedMF, h1, h2, mul_one]
    · intro h
      simp [classifyHandpieceId, h1, h2] at h
  · constructor
    · intro h
      simp [classifyHandpieceId, h1, h2] at h
    · intro h
      simp [calculate_vida_util, vidaUtilSpecFF, usedFF, h1, h2, mul_one]
  · constructor <;> intro h <;> simp [classifyHandpieceId, h1, h2] at h

set_option maxRecDepth 100000 in
/-- Claim C8: a MAIN_FUNCTION row with raw pulse 300 and all other
counters zero: the pulse is rescaled to 100, consumption is 2000, the
remaining percentage is 99.95 and the formatted output is the string
100.0 percent (ties round to even at the one-decimal step). -/
theorem pipeline_pulse300_scenario :
    rescale_pulse_count 300 = 100 ∧
    usedMF ⟨100, 0, 0, 0⟩ = 2000 ∧
    ((4000000 : ℚ) - 2000) / 4000000 * 100 = 99.95 ∧
    calculate_vida_util ⟨rescale_pulse_count 300, 0, 0, 0⟩ "HP19" = "100.0%" := by
  refine ⟨by with_unfolding_all decide, by with_unfolding_all decide,
    by with_unfolding_all decide, by with_unfolding_all decide⟩

/-- Claim C9: for every classified row the numeric remaining-life value
is bounded between 0 and 100, equals zero exactly when the rendered
string is the clamped 0 percent, and is monotonically non-increasing in
each of the four usage counters. -/
theorem vida_util_value_bounded_monotone (id : String) (r r2 : UsageRow) (v v2 : ℚ)
    (hv : vida_util_value r id = some v) (hv2 : vida_util_value r2 id = some v2)
    (hp : r.pulso ≤ r2.pulso) (hra : r.rafaga ≤ r2.rafaga)
    (hac : r.activacion ≤ r2.activacion) (hmo : r.modulacion ≤ r2.modulacion) :
    0 ≤ v ∧ v ≤ 100 ∧ (calculate_vida_util r id = "0%" ↔ v = 0) ∧ v2 ≤ v := by
  unfold vida_util_value at hv hv2
  by_cases h1 : searchEndDigit '1' id = true
  · rw [if_pos h1] at hv hv2
    have hveq : v = max 0 ((4000000 - usedMF r) / 4000000 * 100) := (Option.some.inj hv).symm
    have hv2eq : v2 = max 0 ((4000000 - usedMF r2) / 4000000 * 100) := (Option.some.inj hv2).symm
    have hXe : (4000000 - usedMF r) / 4000000 * 100 = 100 - usedMF r / 40000 := by ring
    have hXe2 : (4000000 - usedMF r2) / 4000000 * 100 = 100 - usedMF r2 / 40000 := by ring
    have hu0 := usedMF_nonneg r
    have humono := usedMF_mono hp hra hac hmo
    refine ⟨?_, ?_, ?_, ?_⟩
    · rw [hveq]
      exact le_max_left 0 _
    · rw [hveq]
      apply max_le (by norm_num)
      rw [hXe]
      linarith
    · constructor
      · intro hs
        by_cases hrem : (4000000 : ℚ) - usedMF r ≤ 0
        · rw [hveq]
          refine max_eq_left_iff.2 ?_
          rw [hXe]
          linarith
        · exfalso
          have hcalc : calculate_vida_util r id
              = formatPct1 ((4000000 - usedMF r) / 4000000 * 100) := by
            simp [calculate_vida_util, h1, hrem]
          rw [hcalc] at hs
          exact formatPct1_ne_zeroPct _ hs
      · intro h0
        rw [hveq] at h0
        have hX0 : (4000000 - usedMF r) / 4000000 * 100 ≤ 0 := max_eq_left_iff.1 h0
        have hrem : (4000000 : ℚ) - usedMF r ≤ 0 := by
          rw [hXe] at hX0
          linarith
        simp [calculate_vida_util, h1, hrem]
    · rw [hveq, hv2eq]
      apply max_le_max le_rfl
      rw [hXe, hXe2]
      linarith
  · rw [if_neg h1] at hv hv2
    by_cases h2 : searchEndDigit '2' id = true
    · rw [if_pos h2] at hv hv2
      have hveq : v = max 0 ((2000000 - usedFF r) / 2000000 * 100) := (Option.some.inj hv).symm
      have hv2eq : v2 = max 0 ((2000000 - usedFF r2) / 2000000 * 100) :=
        (Option.some.inj hv2).symm
      have hXe : (2000000 - usedFF r) / 2000000 * 100 = 100 - usedFF r / 20000 := by ring
      have hXe2 : (2000000 - usedFF r2) / 2000000 * 100 = 100 - usedFF r2 / 20000 := by ring
      have hu0 := usedFF_nonneg r
      have humono := usedFF_mono hp hra hac hmo
      refine ⟨?_, ?_, ?_, ?_⟩
      · rw [hveq]
        exact le_max_left 0 _
      · rw [hveq]
        apply max_le (by norm_num)
        rw [hXe]
        linarith
      · constructor
        · intro hs
          by_cases hrem : (2000000 : ℚ) - usedFF r ≤ 0
          · rw [hveq]
            refine max_eq_left_iff.2 ?_
            rw [hXe]
            linarith
          · exfalso
            have hcalc : calculate_vida_util r id
                = formatPct1 ((2000000 - usedFF r) / 2000000 * 100) := by
              simp [calculate_vida_util, h1, h2, hrem]
            rw [hcalc] at hs
            exact formatPct1_ne_zeroPct _ hs
        · intro h0
          rw [hveq] at h0
          have hX0 : (2000000 - usedFF r) / 2000000 * 100 ≤ 0 := max_eq_left_iff.1 h0
          have hrem : (2000000 : ℚ) - usedFF r ≤ 0 := by
            rw [hXe] at hX0
            linarith
          simp [calculate_vida_util, h1, h2, hrem]
      · rw [hveq, hv2eq]
        apply max_le_max le_rfl
        rw [hXe, hXe2]
        linarith
    · rw [if_neg h2] at hv
      simp at hv

set_option maxRecDepth 100000 in
/-- Closed instance of the claim C9 theorem at a concrete classified
row with all counters zero, and a second row equal to it. -/
theorem vida_util_value_bounded_monotone_witness :
    0 ≤ (100 : ℚ) ∧ (100 : ℚ) ≤ 100 ∧
      (calculate_vida_util ⟨0, 0, 0, 0⟩ "A19" = "0%" ↔ (100 : ℚ) = 0) ∧ (100 : ℚ) ≤ 100 :=
  vida_util_value_bounded_monotone "A19" ⟨0, 0, 0, 0⟩ ⟨0, 0, 0, 0⟩ 100 100
    (by with_unfolding_all decide) (by with_unfolding_all decide)
    le_rfl le_rfl le_rfl le_rfl

/-- Claim C3: the temporal filter localizes naive timestamps to UTC
and retains exactly the rows with timestamp at or after the
UTC-normalized cutoff (as a permutation, i.e. with multiplicity), the
output is sorted by timestamp descending, and a row is ACTIVO exactly
when now minus its timestamp is below 30 days, with now captured once
per invocation. -/
theorem process_handpiece_dates_spec (rows : List HandpieceRow) (cutoffTs : PdTimestamp)
    (today : ℤ) :
    ((process_handpiece_dates rows (toUTC cutoffTs) today).map dropEstado).Perm
        ((rows.map localizeRow).filter (fun r => toUTC cutoffTs ≤ r.fecha_uso)) ∧
    (process_handpiece_dates rows (toUTC cutoffTs) today).Pairwise
        (fun a b => b.fecha_uso ≤ a.fecha_uso) ∧
    ∀ r ∈ process_handpiece_dates rows (toUTC cutoffTs) today,
      (r.estado = "ACTIVO" ↔ today - r.fecha_uso < 30 * secondsPerDay) := by
  refine ⟨?_, ?_, ?_⟩
  · unfold process_handpiece_dates
    rw [List.map_map]
    have hid : dropEstado ∘ addEstado today = id := by
      funext r
      rfl
    rw [hid, List.map_id]
    exact List.mergeSort_perm _ _
  · unfold process_handpiece_dates
    rw [List.pairwise_map]
    refine (List.sorted_mergeSort ?_ ?_ _).imp ?_
    · intro a b c hab hbc
      simp only [decide_eq_true_eq] at hab hbc ⊢
      omega
    · intro a b
      simp only [Bool.or_eq_true, decide_eq_true_eq]
      omega
    · intro a b h
      simp only [decide_eq_true_eq] at h
      exact h
  · intro r hr
    unfold process_handpiece_dates at hr
    rw [List.mem_map] at hr
    obtain ⟨r0, hr0, rfl⟩ := hr
    simp only [addEstado]
    have hed : (today - r0.fecha_uso).fdiv secondsPerDay
        = (today - r0.fecha_uso) / secondsPerDay :=
      Int.fdiv_eq_ediv _ (by norm_num [secondsPerDay])
    by_cases hd : (today - r0.fecha_uso).fdiv secondsPerDay < 30
    · rw [if_pos hd]
      rw [hed] at hd
      simp only [secondsPerDay] at hd ⊢
      constructor
      · intro _
        omega
      · intro _
        trivial
    · rw [if_neg hd]
      rw [hed] at hd
      simp only [secondsPerDay] at hd ⊢
      constructor
      · intro hstr
        exact absurd hstr (by decide)
      · intro hlt
        exact absurd (by omega : (today - r0.fecha_uso) / 86400 < 30) hd

lemma mergeOne_ne_nil (ids : List TreatmentIdRow) (t : TreatmentRow) :
    mergeOne ids t ≠ [] := by
  unfold mergeOne
  rcases hf : ids.filter (fun l => l.treatment_id == t.code) with - | ⟨l0, ls⟩ <;> rw [hf]
  · simp
  · simp

lemma mergeOne_base (ids : List TreatmentIdRow) (t : TreatmentRow) :
    ∀ m ∈ mergeOne ids t, m.din = t.din ∧ m.code = t.code ∧
      m.reported_at = t.reported_at ∧ m.duration = t.duration := by
  intro m hm
  unfold mergeOne at hm
  rcases hf : ids.filter (fun l => l.treatment_id == t.code) with - | ⟨l0, ls⟩ <;>
    rw [hf] at hm
  · rw [List.mem_singleton] at hm
    subst hm
    exact ⟨rfl, rfl, rfl, rfl⟩
  · rw [List.mem_map] at hm
    obtain ⟨l, hl, rfl⟩ := hm
    exact ⟨rfl, rfl, rfl, rfl⟩

lemma mergeOne_unmatched (ids : List TreatmentIdRow) (t : TreatmentRow)
    (h : ∀ l ∈ ids, l.treatment_id ≠ t.code) :
    mergeOne ids t
      = [⟨t.din, t.code, t.reported_at, t.duration, none, none, none, none, none⟩] := by
  have hf : ids.filter (fun l => l.treatment_id == t.code) = [] := by
    rw [List.filter_eq_nil_iff]
    intro l hl
    simp [h l hl]
  unfold mergeOne
  rw [hf]

lemma mergeLeft_length (ts : List TreatmentRow) (ids : List TreatmentIdRow) :
    ts.length ≤ (mergeLeft ts ids).length := by
  unfold mergeLeft
  induction ts with
  | nil => simp
  | cons t ts ih =>
    rw [List.flatMap_cons, List.length_append, List.length_cons]
    have h1 : 1 ≤ (mergeOne ids t).length := by
      rcases hM : mergeOne ids t with - | ⟨m, ms⟩
      · exact absurd hM (mergeOne_ne_nil ids t)
      · simp
    omega

/-- Claim C4: the treatment joiner is a left join followed by a default
fill: the joined table has at least one row per input row, every input
row survives with its base columns intact, and a joined row whose code
has no lookup match carries exactly the defaults Tipo FHOS,
Subprograma FHOS genérico, PVP 60 and Secuencia 1. -/
theorem process_treatments_left_join_defaults (ts : List TreatmentRow)
    (ids : List TreatmentIdRow) :
    ts.length ≤ ((mergeLeft ts ids).map fillDefaults).length ∧
    (∀ t ∈ ts, ∃ m ∈ (mergeLeft ts ids).map fillDefaults,
      m.din = t.din ∧ m.code = t.code ∧ m.reported_at = t.reported_at ∧
        m.duration = t.duration) ∧
    (∀ m ∈ (mergeLeft ts ids).map fillDefaults,
      (∀ l ∈ ids, l.treatment_id ≠ m.code) →
        m.tipo = "FHOS" ∧ m.subprograma = "FHOS genérico" ∧ m.pvp = 60 ∧
          m.secuencia = 1) := by
  refine ⟨by rw [List.length_map]; exact mergeLeft_length ts ids, ?_, ?_⟩
  · intro t ht
    obtain ⟨m0, hm0⟩ : ∃ m0, m0 ∈ mergeOne ids t :=
      List.exists_mem_of_ne_nil _ (mergeOne_ne_nil ids t)
    have hmem : m0 ∈ mergeLeft ts ids := by
      unfold mergeLeft
      exact List.mem_flatMap_of_mem ht hm0
    obtain ⟨h1, h2, h3, h4⟩ := mergeOne_base ids t m0 hm0
    exact ⟨fillDefaults m0, List.mem_map_of_mem _ hmem, h1, h2, h3, h4⟩
  · intro m hm hnone
    rw [List.mem_map] at hm
    obtain ⟨m0, hm0, rfl⟩ := hm
    unfold mergeLeft at hm0
    rw [List.mem_flatMap] at hm0
    obtain ⟨t, ht, hmt⟩ := hm0
    have hcode : m0.code = t.code := (mergeOne_base ids t m0 hmt).2.1
    have hunm : ∀ l ∈ ids, l.treatment_id ≠ t.code := by
      intro l hl
      have h2 := hnone l hl
      simpa [fillDefaults, hcode] using h2
    rw [mergeOne_unmatched ids t hunm, List.mem_singleton] at hmt
    subst hmt
    exact ⟨rfl, rfl, rfl, rfl⟩

/-- Claim C6: when no row has sequence step exactly 1.0, every summary
is empty, and in particular no division by the zero totals happens. -/
theorem create_summaries_empty_of_no_first_step (rows : List DatedTreatmentRow)
    (h : ∀ r ∈ rows, r.secuencia ≠ 1) :
    create_treatment_summary rows = [] ∧ create_program_summary rows = [] ∧
      create_subprogram_summary rows = [] := by
  have hq : rows.filter (fun r => r.secuencia == 1) = [] := by
    rw [List.filter_eq_nil_iff]
    intro r hr
    simp [h r hr]
  refine ⟨?_, ?_, ?_⟩ <;>
    simp [create_treatment_summary, create_program_summary, create_subprogram_summary,
      summarizeBy, summaryGroups, hq]

/-- Closed instance of the claim C6 theorem: a single row with sequence
step 2 produces three empty summaries. -/
theorem create_summaries_empty_witness :
    create_treatment_summary [⟨"D", "C", 0, 0, "T", none, "S", 60, 2⟩] = [] ∧
    create_program_summary [⟨"D", "C", 0, 0, "T", none, "S", 60, 2⟩] = [] ∧
    create_subprogram_summary [⟨"D", "C", 0, 0, "T", none, "S", 60, 2⟩] = [] :=
  create_summaries_empty_of_no_first_step _ (by
    intro r hr
    rw [List.mem_singleton] at hr
    subst hr
    show (2 : ℚ) ≠ 1
    norm_num)

lemma filterMap_filter_isSome {α β : Type} (f : α → Option β) (l : List α) :
    (l.filter (fun a => (f a).isSome)).filterMap f = l.filterMap f := by
  induction l with
  | nil => rfl
  | cons a l ih =>
    cases hf : f a
    · simp [List.filter_cons, List.filterMap_cons, hf, ih]
    · simp [List.filter_cons, List.filterMap_cons, hf, ih]

lemma filter_key_filter_isSome {α : Type} (f : α → Option String) (k : String) (l : List α) :
    (l.filter (fun a => (f a).isSome)).filter (fun a => f a == some k)
      = l.filter (fun a => f a == some k) := by
  rw [List.filter_filter]
  apply List.filter_congr
  intro a ha
  cases hf : f a
  · simp [hf]
  · simp [hf]

lemma summaryGroups_filter_isSome {α : Type} (getKey : α → Option String)
    (getPvp : α → ℚ) (q : List α) :
    summaryGroups getKey getPvp (q.filter (fun r => (getKey r).isSome))
      = summaryGroups getKey getPvp q := by
  unfold summaryGroups
  rw [filterMap_filter_isSome]
  apply List.map_congr_left
  intro k hk
  rw [filter_key_filter_isSome]

lemma summarizeBy_filter_isSome {α : Type} (getKey : α → Option String)
    (getSec getPvp : α → ℚ) (rows : List α) :
    summarizeBy getKey getSec getPvp (rows.filter (fun r => (getKey r).isSome))
      = summarizeBy getKey getSec getPvp rows := by
  simp only [summarizeBy]
  have hq : (rows.filter (fun r => (getKey r).isSome)).filter (fun r => getSec r == 1)
      = (rows.filter (fun r => getSec r == 1)).filter (fun r => (getKey r).isSome) := by
    rw [List.filter_filter, List.filter_filter]
    apply List.filter_congr
    intro a ha
    exact Bool.and_comm _ _
  rw [hq, summaryGroups_filter_isSome]

lemma summarizeBy_mem_label {α : Type} (getKey : α → Option String)
    (getSec getPvp : α → ℚ) (rows : List α) (r : α) (k : String)
    (hr : r ∈ rows) (hsec : getSec r = 1) (hk : getKey r = some k) :
    ∃ g ∈ summarizeBy getKey getSec getPvp rows, g.label = k := by
  have hq : r ∈ rows.filter (fun r => getSec r == 1) :=
    List.mem_filter.mpr ⟨hr, by simp [hsec]⟩
  have hkd : k ∈ ((rows.filter (fun r => getSec r == 1)).filterMap getKey).dedup :=
    List.mem_dedup.mpr (List.mem_filterMap.mpr ⟨r, hq, hk⟩)
  simp only [summarizeBy, summaryGroups]
  exact ⟨_, List.mem_map_of_mem _ (List.mem_mergeSort.mpr (List.mem_map_of_mem _ hkd)), rfl⟩

/-- Claim C10: a joined treatment row whose code has no lookup match
reaches the filtered set with Tipo, Subprograma and Secuencia filled
but Subtipo still missing; the program summary ignores rows with a
missing Subtipo (removing them does not change it); and every
first-sequence row contributes its group to the type and subprogram
summaries. -/
theorem unmatched_rows_summaries :
    (∀ (ts : List TreatmentRow) (ids : List TreatmentIdRow) (din : String) (cutoff : ℤ),
      ∀ r ∈ process_treatments ts ids din cutoff,
        (∀ l ∈ ids, l.treatment_id ≠ r.code) →
          r.subtipo = none ∧ r.tipo = "FHOS" ∧ r.subprograma = "FHOS genérico" ∧
            r.secuencia = 1) ∧
    (∀ rows : List DatedTreatmentRow,
      create_program_summary (rows.filter (fun r => r.subtipo.isSome))
        = create_program_summary rows) ∧
    (∀ rows : List DatedTreatmentRow, ∀ r ∈ rows, r.secuencia = 1 →
      (∃ g ∈ create_treatment_summary rows, g.label = r.tipo) ∧
      (∃ g ∈ create_subprogram_summary rows, g.label = r.subprograma)) := by
  refine ⟨?_, ?_, ?_⟩
  · intro ts ids din cutoff r hr hnone
    unfold process_treatments at hr
    rw [List.mem_filter] at hr
    obtain ⟨hr, -⟩ := hr
    rw [List.mem_map] at hr
    obtain ⟨r1, hr1, rfl⟩ := hr
    rw [List.mem_filter] at hr1
    obtain ⟨hr1, -⟩ := hr1
    rw [List.mem_map] at hr1
    obtain ⟨m0, hm0, rfl⟩ := hr1
    unfold mergeLeft at hm0
    rw [List.mem_flatMap] at hm0
    obtain ⟨t, ht, hmt⟩ := hm0
    have hcode : m0.code = t.code := (mergeOne_base ids t m0 hmt).2.1
    have hunm : ∀ l ∈ ids, l.treatment_id ≠ t.code := by
      intro l hl
      have h2 := hnone l hl
      simpa [localizeTreatmentRow, fillDefaults, hcode] using h2
    rw [mergeOne_unmatched ids t hunm, List.mem_singleton] at hmt
    subst hmt
    exact ⟨rfl, rfl, rfl, rfl⟩
  · intro rows
    exact summarizeBy_filter_isSome _ _ _ rows
  · intro rows r hr hsec
    exact ⟨summarizeBy_mem_label _ _ _ rows r r.tipo hr hsec rfl,
      summarizeBy_mem_label _ _ _ rows r r.subprograma hr hsec rfl⟩

lemma ratFloor_eq_intFloor (q : ℚ) : (q.floor : ℤ) = ⌊q⌋ :=
  (Rat.floor_def' q).trans Rat.floor_def.symm

lemma roundHalfEven_abs_le (q : ℚ) : |(roundHalfEven q : ℚ) - q| ≤ 1 / 2 := by
  unfold roundHalfEven
  have hle : (⌊q⌋ : ℚ) ≤ q := Int.floor_le q
  have hlt : q < ⌊q⌋ + 1 := Int.lt_floor_add_one q
  simp only [ratFloor_eq_intFloor]
  split_ifs with h1 h2 h3
  · rw [abs_le]
    constructor <;> linarith
  · rw [abs_le]
    push_cast
    constructor <;> linarith
  · rw [abs_le]
    constructor <;> linarith
  · rw [abs_le]
    push_cast
    constructor <;> linarith

lemma round2_abs_le (q : ℚ) : |round2 q - q| ≤ 1 / 200 := by
  unfold round2
  have h := roundHalfEven_abs_le (q * 100)
  rw [abs_le] at h ⊢
  obtain ⟨ha, hb⟩ := h
  constructor <;> linarith

lemma sum_map_abs_sub_le {α : Type} (l : List α) (f g : α → ℚ) (c : ℚ)
    (h : ∀ a ∈ l, |f a - g a| ≤ c) :
    |(l.map f).sum - (l.map g).sum| ≤ l.length * c := by
  induction l with
  | nil => simp
  | cons a l ih =>
    simp only [List.map_cons, List.sum_cons, List.length_cons]
    have h1 := h a (List.mem_cons_self a l)
    have h2 := ih (fun x hx => h x (List.mem_cons_of_mem _ hx))
    have e : f a + (l.map f).sum - (g a + (l.map g).sum)
        = (f a - g a) + ((l.map f).sum - (l.map g).sum) := by ring
    have h3 := (e ▸ abs_add (f a - g a) ((l.map f).sum - (l.map g).sum) :
      |f a + (l.map f).sum - (g a + (l.map g).sum)|
        ≤ |f a - g a| + |(l.map f).sum - (l.map g).sum|)
    have e2 : ((l.length + 1 : ℕ) : ℚ) * c = (l.length : ℚ) * c + c := by
      push_cast
      ring
    rw [e2]
    linarith

lemma summaryGroups_cantidad_pos {α : Type} (getKey : α → Option String)
    (getPvp : α → ℚ) (q : List α) :
    ∀ g ∈ summaryGroups getKey getPvp q, 1 ≤ g.cantidad := by
  intro g hg
  unfold summaryGroups at hg
  rw [List.mem_map] at hg
  obtain ⟨k, hk, rfl⟩ := hg
  obtain ⟨r, hr, hfr⟩ := List.mem_filterMap.mp (List.mem_dedup.mp hk)
  have hmem : r ∈ q.filter (fun r => getKey r == some k) :=
    List.mem_filter.mpr ⟨hr, by simp [hfr]⟩
  exact List.length_pos_of_mem hmem

lemma summarizeBy_pct_sums {α : Type} (getKey : α → Option String)
    (getSec getPvp : α → ℚ) (rows : List α)
    (hne : summarizeBy getKey getSec getPvp rows ≠ []) :
    |100 - ((summarizeBy getKey getSec getPvp rows).map (fun g => g.pctTratamientos)).sum|
        ≤ ((summarizeBy getKey getSec getPvp rows).length : ℚ) / 200 ∧
    (0 < ((summarizeBy getKey getSec getPvp rows).map (fun g => g.pvp)).sum →
      |100 - ((summarizeBy getKey getSec getPvp rows).map (fun g => g.pctIngresos)).sum|
          ≤ ((summarizeBy getKey getSec getPvp rows).length : ℚ) / 200) := by
  set q := rows.filter (fun r => getSec r == 1) with hqdef
  set sorted := (summaryGroups getKey getPvp q).mergeSort
      (fun a b => decide (b.cantidad ≤ a.cantidad)) with hsdef
  set totalC : ℚ := (sorted.map (fun g => (g.cantidad : ℚ))).sum with htcdef
  set totalP : ℚ := (sorted.map (fun g => g.pvp)).sum with htpdef
  have hs : summarizeBy getKey getSec getPvp rows = sorted.map (fun g =>
      (⟨g.label, g.cantidad, g.pvp, round2 ((g.cantidad : ℚ) / totalC * 100),
        round2 (g.pvp / totalP * 100)⟩ : SummaryRow)) := rfl
  have hpct : (summarizeBy getKey getSec getPvp rows).map (fun g => g.pctTratamientos)
      = sorted.map (fun g => round2 ((g.cantidad : ℚ) / totalC * 100)) := by
    rw [hs, List.map_map]
    rfl
  have hpvp : (summarizeBy getKey getSec getPvp rows).map (fun g => g.pvp)
      = sorted.map (fun g => g.pvp) := by
    rw [hs, List.map_map]
    rfl
  have hpcti : (summarizeBy getKey getSec getPvp rows).map (fun g => g.pctIngresos)
      = sorted.map (fun g => round2 (g.pvp / totalP * 100)) := by
    rw [hs, List.map_map]
    rfl
  have hlen : (summarizeBy getKey getSec getPvp rows).length = sorted.length := by
    rw [hs, List.length_map]
  have hnonempty : sorted ≠ [] := by
    intro h0
    apply hne
    rw [hs, h0]
    rfl
  have hcant : ∀ g ∈ sorted, 1 ≤ g.cantidad := by
    intro g hg
    exact summaryGroups_cantidad_pos getKey getPvp q g (List.mem_mergeSort.mp hg)
  have htotC : 0 < totalC := by
    rw [htcdef]
    apply List.sum_pos
    · intro x hx
      rw [List.mem_map] at hx
      obtain ⟨g, hg, rfl⟩ := hx
      have h1 : (1 : ℚ) ≤ (g.cantidad : ℚ) := by exact_mod_cast hcant g hg
      linarith
    · intro h0
      exact hnonempty (List.map_eq_nil_iff.mp h0)
  have hsum100C : (sorted.map (fun g => (g.cantidad : ℚ) / totalC * 100)).sum = 100 := by
    have he : sorted.map (fun g => (g.cantidad : ℚ) / totalC * 100)
        = sorted.map (fun g => (g.cantidad : ℚ) * (100 / totalC)) :=
      List.map_congr_left (fun g hg => by ring)
    rw [he, List.sum_map_mul_right, ← htcdef, mul_comm,
      div_mul_cancel₀ _ (ne_of_gt htotC)]
  have happC := sum_map_abs_sub_le sorted
    (fun g => round2 ((g.cantidad : ℚ) / totalC * 100))
    (fun g => (g.cantidad : ℚ) / totalC * 100) (1 / 200)
    (fun a ha => round2_abs_le _)
  rw [hsum100C] at happC
  constructor
  · rw [hpct, hlen, abs_sub_comm]
    calc |(sorted.map (fun g => round2 ((g.cantidad : ℚ) / totalC * 100))).sum - 100|
        ≤ sorted.length * (1 / 200) := happC
      _ = (sorted.length : ℚ) / 200 := by ring
  · intro hP
    rw [hpvp, ← htpdef] at hP
    have hsum100P : (sorted.map (fun g => g.pvp / totalP * 100)).sum = 100 := by
      have he : sorted.map (fun g => g.pvp / totalP * 100)
          = sorted.map (fun g => g.pvp * (100 / totalP)) :=
        List.map_congr_left (fun g hg => by ring)
      rw [he, List.sum_map_mul_right, ← htpdef, mul_comm,
        div_mul_cancel₀ _ (ne_of_gt hP)]
    have happP := sum_map_abs_sub_le sorted
      (fun g => round2 (g.pvp / totalP * 100))
      (fun g => g.pvp / totalP * 100) (1 / 200)
      (fun a ha => round2_abs_le _)
    rw [hsum100P] at happP
    rw [hpcti, hlen, abs_sub_comm]
    calc |(sorted.map (fun g => round2 (g.pvp / totalP * 100))).sum - 100|
        ≤ sorted.length * (1 / 200) := happP
      _ = (sorted.length : ℚ) / 200 := by ring

/-- Claim C5 (amended): for any non-empty summary of n rows (any
dimension: type, program or subprogram), the sum of the
percentage-of-count column lies within n times 0.005 of 100, and so
does the sum of the percentage-of-revenue column provided the revenue
total is positive; the bound n times 0.005 is sharp for half-even
rounding to 2 decimals and exceeds 0.1 as soon as the summary has more
than 20 rows. -/
theorem create_summaries_pct_sums (rows : List DatedTreatmentRow) :
    (create_treatment_summary rows ≠ [] →
      |100 - ((create_treatment_summary rows).map (fun g => g.pctTratamientos)).sum|
          ≤ ((create_treatment_summary rows).length : ℚ) / 200 ∧
      (0 < ((create_treatment_summary rows).map (fun g => g.pvp)).sum →
        |100 - ((create_treatment_summary rows).map (fun g => g.pctIngresos)).sum|
            ≤ ((create_treatment_summary rows).length : ℚ) / 200)) ∧
    (create_program_summary rows ≠ [] →
      |100 - ((create_program_summary rows).map (fun g => g.pctTratamientos)).sum|
          ≤ ((create_program_summary rows).length : ℚ) / 200 ∧
      (0 < ((create_program_summary rows).map (fun g => g.pvp)).sum →
        |100 - ((create_program_summary rows).map (fun g => g.pctIngresos)).sum|
            ≤ ((create_program_summary rows).length : ℚ) / 200)) ∧
    (create_subprogram_summary rows ≠ [] →
      |100 - ((create_subprogram_summary rows).map (fun g => g.pctTratamientos)).sum|
          ≤ ((create_subprogram_summary rows).length : ℚ) / 200 ∧
      (0 < ((create_subprogram_summary rows).map (fun g => g.pvp)).sum →
        |100 - ((create_subprogram_summary rows).map (fun g => g.pctIngresos)).sum|
            ≤ ((create_subprogram_summary rows).length : ℚ) / 200)) :=
  ⟨fun h => summarizeBy_pct_sums _ _ _ rows h,
    fun h => summarizeBy_pct_sums _ _ _ rows h,
    fun h => summarizeBy_pct_sums _ _ _ rows h⟩

lemma c5Rows_map_tipo :
    c5Rows.map (fun r => r.tipo) = (List.range 32).map (fun i => "T" ++ toString i) := by
  unfold c5Rows
  rw [List.map_map]
  rfl

set_option maxRecDepth 100000 in
lemma c5_tipos_nodup : ((List.range 32).map (fun i => "T" ++ toString i)).Nodup := by
  decide

lemma c5Rows_tipo_nodup : (c5Rows.map (fun r => r.tipo)).Nodup := by
  rw [c5Rows_map_tipo]
  exact c5_tipos_nodup

lemma c5_filter_eq : c5Rows.filter (fun r => r.secuencia == 1) = c5Rows := by
  rw [List.filter_eq_self]
  intro r hr
  unfold c5Rows at hr
  rw [List.mem_map] at hr
  obtain ⟨i, -, rfl⟩ := hr
  show ((1 : ℚ) == 1) = true
  with_unfolding_all decide

lemma filter_tipo_singleton (l : List DatedTreatmentRow)
    (hnd : (l.map (fun r => r.tipo)).Nodup) (a : DatedTreatmentRow) (ha : a ∈ l) :
    l.filter (fun x => some x.tipo == some a.tipo) = [a] := by
  induction l with
  | nil => cases ha
  | cons b l ih =>
    rw [List.map_cons, List.nodup_cons] at hnd
    obtain ⟨hb, hnd⟩ := hnd
    rcases List.mem_cons.mp ha with rfl | ha2
    · rw [List.filter_cons_of_pos (by simp)]
      have hnil : l.filter (fun x => some x.tipo == some a.tipo) = [] := by
        rw [List.filter_eq_nil_iff]
        intro x hx hxeq
        apply hb
        have hxe : x.tipo = a.tipo := by simpa using hxeq
        rw [List.mem_map]
        exact ⟨x, hx, hxe⟩
      rw [hnil]
    · have hbne : b.tipo ≠ a.tipo := by
        intro he
        apply hb
        rw [he, List.mem_map]
        exact ⟨a, ha2, rfl⟩
      rw [List.filter_cons_of_neg (by simp [hbne])]
      exact ih hnd ha2

lemma summaryGroups_c5 :
    summaryGroups (fun r => some r.tipo) (fun r => r.pvp) c5Rows
      = c5Rows.map (fun r => (⟨r.tipo, 1, r.pvp⟩ : SummaryGroup)) := by
  unfold summaryGroups
  have h1 : c5Rows.filterMap (fun r => some r.tipo) = c5Rows.map (fun r => r.tipo) :=
    congrFun (List.filterMap_eq_map _) c5Rows
  rw [h1, List.dedup_eq_self.mpr c5Rows_tipo_nodup, List.map_map]
  apply List.map_congr_left
  intro r hr
  have hsingle := filter_tipo_singleton c5Rows c5Rows_tipo_nodup r hr
  show (⟨r.tipo, (c5Rows.filter (fun x => some x.tipo == some r.tipo)).length,
      ((c5Rows.filter (fun x => some x.tipo == some r.tipo)).map (fun x => x.pvp)).sum⟩
        : SummaryGroup) = ⟨r.tipo, 1, r.pvp⟩
  rw [hsingle]
  simp

set_option maxRecDepth 100000 in
lemma round2_one_div_32 : round2 ((1 : ℚ) / 32 * 100) = 78 / 25 := by
  with_unfolding_all decide

/-- Claim C5 (counterexample): thirty-two first-sequence rows with
distinct types produce a non-empty type summary of 32 rows whose
percentage-of-count column sums to 99.84, which is 0.16 away from 100,
more than the 0.1 the claim allows. -/
theorem summary_pct_counterexample :
    (create_treatment_summary c5Rows).length = 32 ∧
    1 / 10 < |100 -
      ((create_treatment_summary c5Rows).map (fun g => g.pctTratamientos)).sum| := by
  set q := c5Rows.filter (fun r => r.secuencia == 1) with hqdef
  set sorted := (summaryGroups (fun r => some r.tipo) (fun r => r.pvp) q).mergeSort
      (fun a b => decide (b.cantidad ≤ a.cantidad)) with hsdef
  set totalC : ℚ := (sorted.map (fun g => (g.cantidad : ℚ))).sum with htcdef
  set totalP : ℚ := (sorted.map (fun g => g.pvp)).sum with htpdef
  have hs : create_treatment_summary c5Rows = sorted.map (fun g =>
      (⟨g.label, g.cantidad, g.pvp, round2 ((g.cantidad : ℚ) / totalC * 100),
        round2 (g.pvp / totalP * 100)⟩ : SummaryRow)) := rfl
  have hgroups : summaryGroups (fun r => some r.tipo) (fun r => r.pvp) q
      = c5Rows.map (fun r => (⟨r.tipo, 1, r.pvp⟩ : SummaryGroup)) := by
    rw [hqdef, c5_filter_eq]
    exact summaryGroups_c5
  have hperm : sorted.Perm (c5Rows.map (fun r => (⟨r.tipo, 1, r.pvp⟩ : SummaryGroup))) := by
    rw [hsdef, hgroups]
    exact List.mergeSort_perm _ _
  have hlen32 : sorted.length = 32 := by
    rw [hperm.length_eq, List.length_map]
    unfold c5Rows
    rw [List.length_map, List.length_range]
  have hallcant : ∀ g ∈ sorted, g.cantidad = 1 := by
    intro g hg
    have hmem := (hperm.mem_iff).mp hg
    rw [List.mem_map] at hmem
    obtain ⟨r, -, rfl⟩ := hmem
    rfl
  have htotC32 : totalC = 32 := by
    rw [htcdef]
    have he : sorted.map (fun g => (g.cantidad : ℚ)) = sorted.map (fun _ => (1 : ℚ)) :=
      List.map_congr_left (fun g hg => by rw [hallcant g hg]; norm_num)
    rw [he, List.map_const', hlen32, List.sum_replicate, nsmul_eq_mul]
    norm_num
  have hmap : (create_treatment_summary c5Rows).map (fun g => g.pctTratamientos)
      = List.replicate 32 (78 / 25 : ℚ) := by
    rw [hs, List.map_map]
    have he : sorted.map
          ((fun g : SummaryRow => g.pctTratamientos) ∘ (fun g : SummaryGroup =>
            (⟨g.label, g.cantidad, g.pvp, round2 ((g.cantidad : ℚ) / totalC * 100),
              round2 (g.pvp / totalP * 100)⟩ : SummaryRow)))
        = sorted.map (fun _ => (78 / 25 : ℚ)) := by
      apply List.map_congr_left
      intro g hg
      show round2 ((g.cantidad : ℚ) / totalC * 100) = 78 / 25
      rw [hallcant g hg, htotC32, Nat.cast_one]
      exact round2_one_div_32
    rw [he, List.map_const', hlen32]
  constructor
  · rw [hs, List.length_map, hlen32]
  · rw [hmap, List.sum_replicate, nsmul_eq_mul]
    push_cast
    have he : (100 : ℚ) - 32 * (78 / 25) = 4 / 25 := by norm_num
    rw [he, abs_of_pos (by norm_num : (0 : ℚ) < 4 / 25)]
    norm_num

/-- Claim C7: the suggested cutoff date is never earlier than
2023-01-01; a hint decoding to 2022-06-01 (Excel serial 44713) is
clamped up to 2023-01-01; a missing device and an unparsable hint also
yield 2023-01-01. -/
theorem get_suggested_cutoff_date_clamped :
    (∀ (drv : List DrvRow) (din : String),
      minCutoffDate ≤ get_suggested_cutoff_date drv din) ∧
    (∀ (rest : List DrvRow) (din : String),
      get_suggested_cutoff_date
        (⟨din, convert_excel_date (.num 44713)⟩ :: rest) din = minCutoffDate) ∧
    (∀ (drv : List DrvRow) (din : String), (∀ r ∈ drv, r.din ≠ din) →
      get_suggested_cutoff_date drv din = minCutoffDate) ∧
    (∀ (rest : List DrvRow) (din : String),
      get_suggested_cutoff_date (⟨din, convert_excel_date .other⟩ :: rest) din
        = minCutoffDate) := by
  refine ⟨?_, ?_, ?_, ?_⟩
  · intro drv din
    unfold get_suggested_cutoff_date
    rcases h : (drv.filter (fun r => r.din == din)).head? with - | r <;> rw [h]
    show minCutoffDate ≤ match r.fecha_corte with
      | none => minCutoffDate
      | some d => if d < minCutoffDate then minCutoffDate else d
    rcases hf : r.fecha_corte with - | d
    · exact le_rfl
    · show minCutoffDate ≤ if d < minCutoffDate then minCutoffDate else d
      split_ifs with hd
      · exact le_rfl
      · exact le_of_not_lt hd
  · intro rest din
    unfold get_suggested_cutoff_date convert_excel_date
    rw [List.filter_cons_of_pos (by simp)]
    show (if (44713 : ℚ) < minCutoffDate then minCutoffDate else 44713) = minCutoffDate
    rw [if_pos (by norm_num [minCutoffDate])]
  · intro drv din h
    have hf : drv.filter (fun r => r.din == din) = [] := by
      rw [List.filter_eq_nil_iff]
      intro r hr
      simp [h r hr]
    unfold get_suggested_cutoff_date
    rw [hf]
    rfl
  · intro rest din
    unfold get_suggested_cutoff_date convert_excel_date
    rw [List.filter_cons_of_pos (by simp)]
    rfl
